import Mathlib

/-!
Verification of a CHIP-8 virtual machine (src/main.cc) against its
natural-language specification.

The C++ interpreter is shallowly embedded: machine integers become `Nat`
with explicit `% 2^w` truncation at every store to a `uint8`/`uint16`
lvalue, the byte array `RAM`, the register file `V`, the call `STACK`,
the key latch and the framebuffer become total functions updated
pointwise, and every fallible path of the interpreter returns
`Except Fault Machine`.  The framebuffer `fb` models the red channel of
`Display::m_memory` (the source stores the same byte into R, G and B and
keeps A fixed, so one channel carries the whole pixel state; a pixel is
lit iff its byte is nonzero).
-/

namespace Chip8

/-- `static constexpr std::size_t MAX_ADDR = 0x1000`. -/
def MAX_ADDR : Nat := 4096

/-- Store to a `uint8` cell of a byte-indexed function: the C++ assignment
to a `std::uint8_t` lvalue truncates modulo 256. -/
def wr8 (f : Nat → Nat) (a v : Nat) : Nat → Nat :=
  fun b => if b = a then v % 256 else f b

/-- Store to a `uint16` cell (the call stack entries are `std::uint16_t`). -/
def wr16 (f : Nat → Nat) (a v : Nat) : Nat → Nat :=
  fun b => if b = a then v % 65536 else f b

/-- The local state of `run` in src/main.cc: RAM, registers `V`, the call
`STACK` with stack pointer `SP`, program counter `PC`, address register `I`,
the two timers with their sub-tick accumulators, the key-wait flag `halt`
with its target register `vKey`, the key latch, and the framebuffer. -/
structure Machine where
  RAM : Nat → Nat
  V : Nat → Nat
  STACK : Nat → Nat
  SP : Nat
  PC : Nat
  I : Nat
  delay : Nat
  sound : Nat
  delayAcc : Nat
  soundAcc : Nat
  halt : Bool
  vKey : Nat
  keys : Nat → Bool
  fb : Nat → Nat → Nat

/-- The fatal error exits of `run` (each prints a message and returns 1). -/
inductive Fault where
  | stackOverflow
  | stackUnderflow
  | invalidMemAccess (addr : Nat)
deriving DecidableEq

/-- Store to a framebuffer cell (the three identical R/G/B byte stores of
`Display::set_pixels`, modelled on the one channel that carries the pixel).
No truncation is needed: the stored value is an XOR of two bytes. -/
def wrFB (fb : Nat → Nat → Nat) (r0 c0 v : Nat) : Nat → Nat → Nat :=
  fun r c => if r = r0 ∧ c = c0 then v else fb r c

/-- Bit `j` (from the left) of a sprite row: `(sprite_row >> (7 - i)) & 0x1`. -/
def spriteBit (row j : Nat) : Nat := row / 2 ^ (7 - j) % 2

/-- The byte XORed onto a framebuffer cell: `((sprite_row >> (7 - i)) & 0x1) * 255`. -/
def spriteMask (row j : Nat) : Nat := spriteBit row j * 255

/-- The loop of `Display::set_pixels`: `for (i = 0; i < 8u && (x + i) < W; ++i)`.
`fuel` is the structural bound (the loop body runs at most `8` times, so the
entry point passes `fuel = 8`); the real exit conditions are the source's
guards `i < 8` and `x + i < 64`.  Each iteration XORs the sprite bit onto the
cell `(y, x+i)` and records a collision when a nonzero byte became zero. -/
def setPixelsLoop (x y row : Nat) : (Nat → Nat → Nat) → Nat → Nat → ((Nat → Nat → Nat) × Bool)
  | fb, _, 0 => (fb, false)
  | fb, i, fuel+1 =>
    if i < 8 ∧ x + i < 64 then
      let old := fb y (x + i)
      let nw := Nat.xor old (spriteMask row i)
      let rest := setPixelsLoop x y row (wrFB fb y (x + i) nw) (i + 1) fuel
      (rest.1, rest.2 || (decide (nw = 0) && decide (old ≠ 0)))
    else (fb, false)

/-- `Display::set_pixels(x, y, sprite_row)`. -/
def setPixels (fb : Nat → Nat → Nat) (x y row : Nat) : ((Nat → Nat → Nat) × Bool) :=
  setPixelsLoop x y row fb 0 8

/-- The row loop of the draw instruction (case `0xD`):
`for (i = 0; i < n && (cy + i) < HEIGHT; ++i)`, faulting when the sprite
read `I + i` is at or beyond `MAX_ADDR`, otherwise blitting the row and
setting `V[0xF] = 1` on collision.  `fuel = n` at the entry point. -/
def drawRows (cx cy n : Nat) : Machine → Nat → Nat → Except Fault Machine
  | m, _, 0 => .ok m
  | m, i, fuel+1 =>
    if i < n ∧ cy + i < 32 then
      if 4096 ≤ m.I + i then .error (.invalidMemAccess (m.I + i))
      else
        let sp := setPixels m.fb cx (cy + i) (m.RAM (m.I + i))
        drawRows cx cy n
          { m with fb := sp.1, V := if sp.2 then wr8 m.V 15 1 else m.V } (i + 1) fuel
    else .ok m

/-- `memcpy(RAM.data() + I, V.data(), x + 1)` of case `0xF55`:
copies registers `0..cnt-1` to memory at `base`. -/
def dumpRegs (v : Nat → Nat) (base : Nat) : (Nat → Nat) → Nat → (Nat → Nat)
  | ram, 0 => ram
  | ram, k+1 => wr8 (dumpRegs v base ram k) (base + k) (v k)

/-- `memcpy(V.data(), RAM.data() + I, x + 1)` of case `0xF65`:
copies memory `base..base+cnt-1` into registers `0..cnt-1`. -/
def loadRegs (ram : Nat → Nat) (base : Nat) : (Nat → Nat) → Nat → (Nat → Nat)
  | v, 0 => v
  | v, k+1 => wr8 (loadRegs ram base v k) k (ram (base + k))

/-- One instruction execution: the decode (`n`, `kk`, `nnn`, `x`, `y`),
the `PC += 2` that precedes the dispatch, and the `switch (operation >> 12)`
of `run`, with each case translated clause by clause from src/main.cc.
`rnd` is the byte drawn from `uid(rd)` for the `0xC` instruction.
A C++ `>>`/`&`-mask on a nonnegative value is written `/`/`% 2^w`.
Unknown opcodes only print and fall through (`.ok m`). -/
def exec (rnd op : Nat) (m0 : Machine) : Except Fault Machine :=
  let n := op % 16
  let kk := op % 256
  let nnn := op % 4096
  let x := op / 256 % 16
  let y := op / 16 % 16
  let m := { m0 with PC := (m0.PC + 2) % 65536 }
  if op / 4096 = 0 then
    if kk = 0xE0 then .ok { m with fb := fun _ _ => 0 }
    else if kk = 0xEE then
      if m.SP = 0 then .error .stackUnderflow
      else .ok { m with PC := m.STACK (m.SP - 1), SP := m.SP - 1 }
    else .ok m
  else if op / 4096 = 1 then .ok { m with PC := nnn }
  else if op / 4096 = 2 then
    if m.SP + 1 = 16 then .error .stackOverflow
    else .ok { m with STACK := wr16 m.STACK m.SP m.PC, SP := m.SP + 1, PC := nnn }
  else if op / 4096 = 3 then
    .ok { m with PC := (m.PC + (if m.V x = kk then 1 else 0) * 2) % 65536 }
  else if op / 4096 = 4 then
    .ok { m with PC := (m.PC + (if m.V x ≠ kk then 1 else 0) * 2) % 65536 }
  else if op / 4096 = 5 then
    .ok { m with PC := (m.PC + (if m.V x = m.V y then 1 else 0) * 2) % 65536 }
  else if op / 4096 = 6 then .ok { m with V := wr8 m.V x kk }
  else if op / 4096 = 7 then .ok { m with V := wr8 m.V x (m.V x + kk) }
  else if op / 4096 = 8 then
    if n = 0 then .ok { m with V := wr8 m.V x (m.V y) }
    else if n = 1 then .ok { m with V := wr8 (wr8 m.V x (m.V x ||| m.V y)) 15 0 }
    else if n = 2 then .ok { m with V := wr8 (wr8 m.V x (m.V x &&& m.V y)) 15 0 }
    else if n = 3 then .ok { m with V := wr8 (wr8 m.V x (Nat.xor (m.V x) (m.V y))) 15 0 }
    else if n = 4 then
      let sum := m.V x + m.V y
      .ok { m with V := wr8 (wr8 m.V x sum) 15 (if 255 < sum then 1 else 0) }
    else if n = 5 then
      let flag := if m.V y ≤ m.V x then 1 else 0
      .ok { m with V := wr8 (wr8 m.V x (m.V x + 256 - m.V y)) 15 flag }
    else if n = 6 then
      let vy := m.V y
      .ok { m with V := wr8 (wr8 m.V x (vy / 2)) 15 (vy % 2) }
    else if n = 7 then
      let flag := if m.V x ≤ m.V y then 1 else 0
      .ok { m with V := wr8 (wr8 m.V x (m.V y + 256 - m.V x)) 15 flag }
    else if n = 0xE then
      let vy := m.V y
      .ok { m with V := wr8 (wr8 m.V x (vy * 2)) 15 (vy / 128) }
    else .ok m
  else if op / 4096 = 9 then
    .ok { m with PC := (m.PC + (if m.V x ≠ m.V y then 1 else 0) * 2) % 65536 }
  else if op / 4096 = 10 then .ok { m with I := nnn }
  else if op / 4096 = 11 then .ok { m with PC := (nnn + m.V 0) % 65536 }
  else if op / 4096 = 12 then .ok { m with V := wr8 m.V x (rnd &&& kk) }
  else if op / 4096 = 13 then
    let mc := { m with V := wr8 m.V 15 0 }
    drawRows (mc.V x % 64) (mc.V y % 32) n mc 0 n
  else if op / 4096 = 14 then
    if kk = 0xA1 then
      .ok { m with PC := (m.PC + (if m.keys (m.V x) then 0 else 1) * 2) % 65536 }
    else if kk = 0x9E then
      .ok { m with PC := (m.PC + (if m.keys (m.V x) then 1 else 0) * 2) % 65536 }
    else .ok m
  else if op / 4096 = 15 then
    if kk = 0x07 then .ok { m with V := wr8 m.V x m.delay }
    else if kk = 0x0A then .ok { m with halt := true, vKey := x, keys := fun _ => false }
    else if kk = 0x15 then .ok { m with delay := m.V x, delayAcc := 0 }
    else if kk = 0x18 then .ok { m with sound := m.V x, soundAcc := 0 }
    else if kk = 0x1E then .ok { m with I := (m.I + m.V x) % 65536 }
    else if kk = 0x29 then .ok { m with I := m.V x * 5 % 65536 }
    else if kk = 0x33 then
      .ok { m with RAM := wr8 (wr8 (wr8 m.RAM m.I (m.V x / 100))
              (m.I + 1) (m.V x % 100 / 10)) (m.I + 2) (m.V x % 10) }
    else if kk = 0x55 then
      .ok { m with RAM := dumpRegs m.V m.I m.RAM (x + 1), I := (m.I + (x + 1)) % 65536 }
    else if kk = 0x65 then
      .ok { m with V := loadRegs m.RAM m.I m.V (x + 1), I := (m.I + (x + 1)) % 65536 }
    else .ok m
  else .ok m

/-- Big-endian instruction fetch:
`(static_cast<uint16>(RAM[PC]) << 8) | RAM[PC + 1]`. -/
def fetch (m : Machine) : Nat := m.RAM m.PC <<< 8 ||| m.RAM (m.PC + 1)

/-- Fetch and execute one instruction. -/
def step (rnd : Nat) (m : Machine) : Except Fault Machine :=
  exec rnd (fetch m) m

/-- Execute `k` consecutive instructions, stopping at the first fault.
`rnds` supplies the random byte for each step. -/
def stepN (rnds : Nat → Nat) : Nat → Machine → Except Fault Machine
  | 0, m => .ok m
  | k+1, m =>
    match step (rnds k) m with
    | .error f => .error f
    | .ok m1 => stepN rnds k m1

/-- `duration_cast<microseconds>(FRAME_DURATION)`: the fixed 2 ms the driver
loop adds to each accumulator every iteration. -/
def FRAME_MC : Nat := 2000

/-- `TIMER_TICK = microseconds(16700)`: the 60 Hz tick threshold. -/
def TIMER_TICK_MC : Nat := 16700

/-- The sound-timer block at the bottom of the driver loop; the `Bool` records
whether `SDL_PauseAudio(1)` (tone-off) was signalled this iteration. -/
def soundTick (s acc : Nat) : Nat × Nat × Bool :=
  if 0 < s then
    if TIMER_TICK_MC ≤ acc + FRAME_MC then (s - 1, 0, decide (s - 1 = 0))
    else (s, acc + FRAME_MC, false)
  else (s, acc, false)

/-- The delay-timer block at the bottom of the driver loop. -/
def delayTick (d acc : Nat) : Nat × Nat :=
  if 0 < d then
    if TIMER_TICK_MC ≤ acc + FRAME_MC then (d - 1, 0)
    else (d, acc + FRAME_MC)
  else (d, acc)

/-- Both timer blocks applied to the machine; the `Bool` is the tone-off signal. -/
def timersTick (m : Machine) : Machine × Bool :=
  let s := soundTick m.sound m.soundAcc
  let d := delayTick m.delay m.delayAcc
  ({ m with sound := s.1, soundAcc := s.2.1, delay := d.1, delayAcc := d.2 }, s.2.2)

/-- Iterate the sound-timer block `k` times, counting tone-off signals. -/
def soundRunCount : Nat → Nat → Nat → Nat × Nat × Nat
  | 0, s, a => (s, a, 0)
  | k+1, s, a =>
    let t := soundTick s a
    let r := soundRunCount k t.1 t.2.1
    (r.1, r.2.1, r.2.2 + (if t.2.2 then 1 else 0))

/-- `SDL_PauseAudio(0)` (tone-on) is called exactly when the executed
instruction is `Fx18` and the written value `V[x]` is positive
(src/main.cc lines 494-501). -/
def toneOnSignal (op : Nat) (m : Machine) : Bool :=
  if op / 4096 = 15 ∧ op % 256 = 0x18 then decide (0 < m.V (op / 256 % 16)) else false

/-- Result of the driver loop `while (PC <= program_end)`. -/
inductive RunOutcome where
  | success
  | faulted (f : Fault)
  | fuelOut
deriving DecidableEq

/-- The driver loop of `run`, with a fuel bound on the number of iterations
(`fuelOut` marks fuel exhaustion, not a behavior of the program).  Each
iteration checks the guard `PC <= program_end` (exiting with `return 0` when
it fails), executes one instruction unless halted by `Fx0A`, then advances
the timers.  The SDL event pump is external input and is modelled as
delivering no events.  The second component is the trace of `PC` values at
which instructions were fetched. -/
def loopRun (progEnd : Nat) (rnds : Nat → Nat) : Nat → Machine → RunOutcome × List Nat
  | 0, _ => (.fuelOut, [])
  | fuel+1, m =>
    if progEnd < m.PC then (.success, [])
    else if m.halt then loopRun progEnd rnds fuel (timersTick m).1
    else
      match step (rnds fuel) m with
      | .error f => (.faulted f, [m.PC])
      | .ok m1 =>
        let r := loopRun progEnd rnds fuel (timersTick m1).1
        (r.1, m.PC :: r.2)

/-- `load(program_file, RAM, base)`: returns 0 when the file cannot be opened
(modelled as `none`) or when `base + file_size >= RAM.size()`, else
`base + file_size`. -/
def load (file : Option (List Nat)) (base : Nat) : Nat :=
  match file with
  | none => 0
  | some bytes => if 4096 ≤ base + bytes.length then 0 else base + bytes.length

/-- `program_end = load(chip8_img, RAM, 0x200) - 1` on a `std::uint16_t`:
subtraction wraps modulo 65536. -/
def programEnd (file : Option (List Nat)) : Nat := (load file 512 + 65535) % 65536

/-- The startup check `if (program_end == 0)` that is meant to reject a
failed load. -/
def loadRejected (file : Option (List Nat)) : Bool := decide (programEnd file = 0)

/-- The 16 x 5 hexadecimal glyph font of `load_font`. -/
def fontBytes : List Nat :=
  [0xF0, 0x90, 0x90, 0x90, 0xF0, 0x20, 0x60, 0x20, 0x20, 0x70,
   0xF0, 0x10, 0xF0, 0x80, 0xF0, 0xF0, 0x10, 0xF0, 0x10, 0xF0,
   0x90, 0x90, 0xF0, 0x10, 0x10, 0xF0, 0x80, 0xF0, 0x10, 0xF0,
   0xF0, 0x80, 0xF0, 0x90, 0xF0, 0xF0, 0x10, 0x20, 0x40, 0x40,
   0xF0, 0x90, 0xF0, 0x90, 0xF0, 0xF0, 0x90, 0xF0, 0x10, 0xF0,
   0xF0, 0x90, 0xF0, 0x90, 0x90, 0xE0, 0x90, 0xE0, 0x90, 0xE0,
   0xF0, 0x80, 0x80, 0x80, 0xF0, 0xE0, 0x90, 0x90, 0x90, 0xE0,
   0xF0, 0x80, 0xF0, 0x80, 0xF0, 0xF0, 0x80, 0xF0, 0x80, 0x80]

/-- `load_font(RAM)`: the 80 font bytes are written at address 0. -/
def loadFont (ram : Nat → Nat) : Nat → Nat :=
  fun a => if a < 80 then fontBytes.getD a 0 else ram a

/-- The zero-initialised locals of `run` (`RAM {} , V {}, STACK {}, ...`)
with `PC = program_base = 0x200` and the given RAM contents. -/
def initM (ram : Nat → Nat) : Machine :=
  { RAM := ram, V := fun _ => 0, STACK := fun _ => 0, SP := 0, PC := 512, I := 0,
    delay := 0, sound := 0, delayAcc := 0, soundAcc := 0, halt := false, vKey := 0,
    keys := fun _ => false, fb := fun _ _ => 0 }

/-- The RAM addresses written by the instruction `step` is about to execute
(instrumentation of the memory stores of cases `0xF33` and `0xF55`; all other
instructions write registers, stack or framebuffer only). -/
def stepWriteAddrs (m : Machine) : List Nat :=
  let op := fetch m
  let x := op / 256 % 16
  if op / 4096 = 15 ∧ op % 256 = 0x33 then [m.I, m.I + 1, m.I + 2]
  else if op / 4096 = 15 ∧ op % 256 = 0x55 then (List.range (x + 1)).map (fun k => m.I + k)
  else []

/-- A machine about to execute `F033` (BCD store of `V0 = 123`) with
`I = 0xFFF`, so the tens and ones digits land at addresses 4096 and 4097. -/
def c1m : Machine :=
  { initM (fun a => if a = 512 then 0xF0 else if a = 513 then 0x33 else 0) with
      I := 4095, V := fun k => if k = 0 then 123 else 0 }

def isOk : Except Fault Machine → Bool :=
  fun e => match e with | .ok _ => true | .error _ => false

def okRAMAt (a : Nat) : Except Fault Machine → Option Nat :=
  fun e => match e with | .ok m => some (m.RAM a) | .error _ => none

/-- A program of `d` nested calls: the call at `0x200 + 4k` targets
`0x200 + 4(k+1)`; a return (`00EE`) sits at the innermost address
`0x200 + 4d` and after every call site. -/
def callProg (d : Nat) : Nat → Nat := fun a =>
  if a < 512 ∨ 512 + 4 * d + 2 ≤ a then 0
  else
    let off := a - 512
    let k := off / 4
    if k = d then (if off % 4 = 0 then 0 else 0xEE)
    else if off % 4 = 0 then 0x20 + (512 + 4 * (k + 1)) / 256
    else if off % 4 = 1 then (512 + 4 * (k + 1)) % 256
    else if off % 4 = 2 then 0
    else 0xEE

def okPCSP : Except Fault Machine → Option (Nat × Nat) :=
  fun e => match e with
  | .ok m => some (m.PC, m.SP)
  | .error _ => none

def callMachine (d : Nat) : Machine := initM (callProg d)

/-- A program whose first instruction is a bare return (`00EE`). -/
def retProg : Nat → Nat := fun a => if a = 513 then 0xEE else 0

def isStackOverflow : Except Fault Machine → Bool :=
  fun e => match e with | .error .stackOverflow => true | _ => false

def isStackUnderflow : Except Fault Machine → Bool :=
  fun e => match e with | .error .stackUnderflow => true | _ => false

/-- Machine with nontrivial register contents used to instantiate the
arithmetic theorems' witnesses. -/
def wM : Machine :=
  { initM (fun _ => 0) with V := fun k => if k = 1 then 200 else if k = 2 then 100 else 0 }

/-- Machine used for the draw counterexample and witnesses: sprite byte
`0x80` at `I = 0x300`, framebuffer cell (0,0) lit (byte 255), `V0 = V1 = 0`. -/
def cm9 : Machine :=
  { initM (fun a => if a = 768 then 0x80 else 0) with
      I := 768, fb := fun r c => if r = 0 ∧ c = 0 then 255 else 0 }

def draw2 (m : Machine) (op : Nat) : Except Fault Machine :=
  match exec 0 op m with
  | .error f => .error f
  | .ok m1 => exec 0 op m1

def okVF : Except Fault Machine → Option Nat :=
  fun e => match e with | .ok m => some (m.V 15) | .error _ => none

theorem wrFB_same (fb : Nat → Nat → Nat) (r0 c0 v : Nat) : wrFB fb r0 c0 v r0 c0 = v := by
  simp [wrFB]

theorem wrFB_other (fb : Nat → Nat → Nat) (r0 c0 v r c : Nat) (h : ¬(r = r0 ∧ c = c0)) :
    wrFB fb r0 c0 v r c = fb r c := by
  simp only [wrFB, if_neg h]

theorem wr8_at_15 (v : Nat → Nat) (w : Nat) : wr8 v 15 w 15 = w % 256 := by
  simp [wr8]

theorem wr8_not_15 (v : Nat → Nat) (w k : Nat) (hk : k ≠ 15) : wr8 v 15 w k = v k := by
  simp [wr8, hk]

theorem xorCancel (a b : Nat) : Nat.xor (Nat.xor a b) b = a := Nat.xor_cancel_right b a

theorem zeroXor (a : Nat) : Nat.xor 0 a = a := Nat.zero_xor a

/-- Characterization of `Display::set_pixels`' column loop from iteration `i`
on: cells `(y, x+j)` with `i <= j < 8` and `x + j < 64` are XORed with the
sprite bit mask (columns at or beyond the right edge are clipped), every other
cell is untouched, and the returned collision bit is true iff some visited
cell held a nonzero byte that the XOR turned to zero. -/
theorem setPixelsLoop_spec (x y row : Nat) :
    ∀ fuel i fb, i + fuel = 8 →
      (∀ j, i ≤ j → j < 8 → x + j < 64 →
        (setPixelsLoop x y row fb i fuel).1 y (x + j) =
          Nat.xor (fb y (x + j)) (spriteMask row j)) ∧
      (∀ r c, (∀ j, i ≤ j → j < 8 → x + j < 64 → ¬(r = y ∧ c = x + j)) →
        (setPixelsLoop x y row fb i fuel).1 r c = fb r c) ∧
      ((setPixelsLoop x y row fb i fuel).2 = true ↔
        ∃ j, i ≤ j ∧ j < 8 ∧ x + j < 64 ∧ fb y (x + j) ≠ 0 ∧
          Nat.xor (fb y (x + j)) (spriteMask row j) = 0) := by
  intro fuel
  induction fuel with
  | zero =>
    intro i fb hif
    refine ⟨?_, ?_, ?_⟩
    · intro j h1 h2 h3
      omega
    · intro r c h
      rfl
    · show false = true ↔ _
      constructor
      · intro h
        exact absurd h (by simp)
      · rintro ⟨j, h1, h2, -⟩
        omega
  | succ fuel ih =>
    intro i fb hif
    have hi8 : i < 8 := by omega
    by_cases hxi : x + i < 64
    · have hstep : setPixelsLoop x y row fb i (fuel + 1) =
          ((setPixelsLoop x y row
              (wrFB fb y (x + i) (Nat.xor (fb y (x + i)) (spriteMask row i))) (i + 1) fuel).1,
           (setPixelsLoop x y row
              (wrFB fb y (x + i) (Nat.xor (fb y (x + i)) (spriteMask row i))) (i + 1) fuel).2 ||
             (decide (Nat.xor (fb y (x + i)) (spriteMask row i) = 0) &&
              decide (fb y (x + i) ≠ 0))) := by
        rw [setPixelsLoop]
        simp only [if_pos (And.intro hi8 hxi)]
      obtain ⟨ih1, ih2, ih3⟩ :=
        ih (i + 1) (wrFB fb y (x + i) (Nat.xor (fb y (x + i)) (spriteMask row i))) (by omega)
      have hA : ∀ j, i + 1 ≤ j →
          wrFB fb y (x + i) (Nat.xor (fb y (x + i)) (spriteMask row i)) y (x + j) =
            fb y (x + j) := by
        intro j hj
        apply wrFB_other
        rintro ⟨-, h⟩
        omega
      refine ⟨?_, ?_, ?_⟩
      · intro j h1 h2 h3
        rw [hstep]
        rcases Nat.eq_or_lt_of_le h1 with hji | hji
        · subst hji
          rw [ih2]
          · rw [wrFB_same]
          · intro j' h1' h2' h3'
            rintro ⟨-, h⟩
            omega
        · rw [ih1 j (by omega) h2 h3, hA j (by omega)]
      · intro r c hno
        rw [hstep]
        rw [ih2]
        · apply wrFB_other
          exact hno i (le_refl i) hi8 hxi
        · intro j hj1 hj2 hj3
          exact hno j (by omega) hj2 hj3
      · rw [hstep]
        show (_ || _) = true ↔ _
        rw [Bool.or_eq_true, ih3]
        constructor
        · rintro (⟨j, hj1, hj2, hj3, hj4, hj5⟩ | hcol)
          · rw [hA j hj1] at hj4 hj5
            exact ⟨j, by omega, hj2, hj3, hj4, hj5⟩
          · rw [Bool.and_eq_true, decide_eq_true_eq, decide_eq_true_eq] at hcol
            exact ⟨i, le_refl i, hi8, hxi, hcol.2, hcol.1⟩
        · rintro ⟨j, hj1, hj2, hj3, hj4, hj5⟩
          rcases Nat.eq_or_lt_of_le hj1 with hji | hji
          · right
            rw [Bool.and_eq_true, decide_eq_true_eq, decide_eq_true_eq]
            subst hji
            exact ⟨hj5, hj4⟩
          · left
            refine ⟨j, by omega, hj2, hj3, ?_, ?_⟩
            · rw [hA j (by omega)]
              exact hj4
            · rw [hA j (by omega)]
              exact hj5
    · have hstep : setPixelsLoop x y row fb i (fuel + 1) = (fb, false) := by
        rw [setPixelsLoop]
        rw [if_neg]
        rintro ⟨-, h⟩
        exact hxi h
      refine ⟨?_, ?_, ?_⟩
      · intro j h1 h2 h3
        omega
      · intro r c h
        rw [hstep]
      · rw [hstep]
        constructor
        · intro h
          exact absurd h (by simp)
        · rintro ⟨j, h1, h2, h3, -⟩
          omega

/-- Characterization of the draw instruction's row loop from row `i` on:
RAM, `I` and all registers except the flag are untouched; the cells covered
by rows `i <= k < n` that lie above the bottom edge (`cy + k < 32`, rows
below are skipped) and by columns `j < 8` with `cx + j < 64` (clipped) are
XORed with the corresponding sprite bit mask and no other cell changes;
the flag register ends 1 iff some covered nonzero cell was zeroed during the
blit or it was already 1 on entry, and otherwise it keeps its entry value. -/
theorem drawRows_spec (cx cy n : Nat) :
    ∀ fuel i m, i + fuel = n →
      (∀ k, i ≤ k → k < n → cy + k < 32 → m.I + k < 4096) →
      ∃ m', drawRows cx cy n m i fuel = Except.ok m' ∧
        m'.RAM = m.RAM ∧ m'.I = m.I ∧
        (∀ k j, i ≤ k → k < n → cy + k < 32 → j < 8 → cx + j < 64 →
          m'.fb (cy + k) (cx + j) =
            Nat.xor (m.fb (cy + k) (cx + j)) (spriteMask (m.RAM (m.I + k)) j)) ∧
        (∀ r c, (∀ k j, i ≤ k → k < n → cy + k < 32 → j < 8 → cx + j < 64 →
            ¬(r = cy + k ∧ c = cx + j)) → m'.fb r c = m.fb r c) ∧
        (∀ k, k ≠ 15 → m'.V k = m.V k) ∧
        (m'.V 15 = 1 ↔ (∃ k j, i ≤ k ∧ k < n ∧ cy + k < 32 ∧ j < 8 ∧ cx + j < 64 ∧
            m.fb (cy + k) (cx + j) ≠ 0 ∧
            Nat.xor (m.fb (cy + k) (cx + j)) (spriteMask (m.RAM (m.I + k)) j) = 0) ∨
          m.V 15 = 1) ∧
        (m'.V 15 = m.V 15 ∨ m'.V 15 = 1) := by
  intro fuel
  induction fuel with
  | zero =>
    intro i m hif hsafe
    refine ⟨m, rfl, rfl, rfl, ?_, ?_, ?_, ?_, Or.inl rfl⟩
    · intro k j h1 h2 h3 h4 h5
      omega
    · intro r c h
      rfl
    · intro k h
      rfl
    · constructor
      · intro h
        exact Or.inr h
      · rintro (⟨k, j, h1, h2, -⟩ | h)
        · omega
        · exact h
  | succ fuel ih =>
    intro i m hif hsafe
    have hin : i < n := by omega
    by_cases hcyi : cy + i < 32
    · have hge : ¬ 4096 ≤ m.I + i := by
        have := hsafe i (le_refl i) hin hcyi
        omega
      have hstep : drawRows cx cy n m i (fuel + 1) =
          drawRows cx cy n
            { m with fb := (setPixels m.fb cx (cy + i) (m.RAM (m.I + i))).1,
                     V := if (setPixels m.fb cx (cy + i) (m.RAM (m.I + i))).2
                          then wr8 m.V 15 1 else m.V } (i + 1) fuel := by
        rw [drawRows]
        rw [if_pos (And.intro hin hcyi), if_neg hge]
      obtain ⟨hsp1, hsp2, hsp3⟩ :=
        setPixelsLoop_spec cx (cy + i) (m.RAM (m.I + i)) 8 0 m.fb rfl
      rw [show setPixelsLoop cx (cy + i) (m.RAM (m.I + i)) m.fb 0 8 =
            setPixels m.fb cx (cy + i) (m.RAM (m.I + i)) from rfl] at hsp1 hsp2 hsp3
      obtain ⟨m', hrun, hRAM, hI, hchg, hunc, hVo, hViff, hVcase⟩ :=
        ih (i + 1)
          { m with fb := (setPixels m.fb cx (cy + i) (m.RAM (m.I + i))).1,
                   V := if (setPixels m.fb cx (cy + i) (m.RAM (m.I + i))).2
                        then wr8 m.V 15 1 else m.V }
          (by omega) (fun k h1 h2 h3 => hsafe k (by omega) h2 h3)
      have hm1fb : ∀ r c, (¬ r = cy + i) →
          (setPixels m.fb cx (cy + i) (m.RAM (m.I + i))).1 r c = m.fb r c := by
        intro r c hr
        apply hsp2
        intro j' h1 h2 h3
        rintro ⟨h, -⟩
        exact hr h
      have hm1V15 :
          (if (setPixels m.fb cx (cy + i) (m.RAM (m.I + i))).2
           then wr8 m.V 15 1 else m.V) 15 = 1 ↔
            ((setPixels m.fb cx (cy + i) (m.RAM (m.I + i))).2 = true ∨ m.V 15 = 1) := by
        split
        · rename_i h
          simp [wr8, h]
        · rename_i h
          simp [h]
      refine ⟨m', hstep.trans hrun, hRAM, hI, ?_, ?_, ?_, ?_, ?_⟩
      · intro k j h1 h2 h3 h4 h5
        rcases Nat.eq_or_lt_of_le h1 with rfl | hki
        · have h6 : m'.fb (cy + i) (cx + j) =
              (setPixels m.fb cx (cy + i) (m.RAM (m.I + i))).1 (cy + i) (cx + j) := by
            apply hunc
            intro k' j' h1' h2' h3' h4' h5'
            rintro ⟨h, -⟩
            omega
          rw [h6]
          exact hsp1 j (Nat.zero_le j) h4 h5
        · have h6 := hchg k j (by omega) h2 h3 h4 h5
          dsimp only at h6
          rw [h6, hm1fb (cy + k) (cx + j) (by omega)]
      · intro r c hno
        have h6 : m'.fb r c =
            (setPixels m.fb cx (cy + i) (m.RAM (m.I + i))).1 r c := by
          apply hunc
          intro k' j' h1' h2' h3' h4' h5'
          exact hno k' j' (by omega) h2' h3' h4' h5'
        rw [h6]
        apply hsp2
        intro j' h1' h2' h3'
        exact hno i j' (le_refl i) hin hcyi h2' h3'
      · intro k hk
        rw [hVo k hk]
        show (if _ then wr8 m.V 15 1 else m.V) k = m.V k
        split
        · simp [wr8, hk]
        · rfl
      · have hEx : (∃ k j, i + 1 ≤ k ∧ k < n ∧ cy + k < 32 ∧ j < 8 ∧ cx + j < 64 ∧
            (setPixels m.fb cx (cy + i) (m.RAM (m.I + i))).1 (cy + k) (cx + j) ≠ 0 ∧
            Nat.xor ((setPixels m.fb cx (cy + i) (m.RAM (m.I + i))).1 (cy + k) (cx + j))
              (spriteMask (m.RAM (m.I + k)) j) = 0) ↔
            (∃ k j, i + 1 ≤ k ∧ k < n ∧ cy + k < 32 ∧ j < 8 ∧ cx + j < 64 ∧
              m.fb (cy + k) (cx + j) ≠ 0 ∧
              Nat.xor (m.fb (cy + k) (cx + j)) (spriteMask (m.RAM (m.I + k)) j) = 0) := by
          constructor
          · rintro ⟨k, j, h1, h2, h3, h4, h5, h6, h7⟩
            rw [hm1fb (cy + k) (cx + j) (by omega)] at h6 h7
            exact ⟨k, j, h1, h2, h3, h4, h5, h6, h7⟩
          · rintro ⟨k, j, h1, h2, h3, h4, h5, h6, h7⟩
            refine ⟨k, j, h1, h2, h3, h4, h5, ?_, ?_⟩
            · rw [hm1fb (cy + k) (cx + j) (by omega)]
              exact h6
            · rw [hm1fb (cy + k) (cx + j) (by omega)]
              exact h7
        rw [hViff, hEx, hm1V15, hsp3]
        constructor
        · rintro (⟨k, j, h1, h2, h3, h4, h5, h6, h7⟩ | ⟨j, h1, h2, h3, h4, h5⟩ | h)
          · exact Or.inl ⟨k, j, by omega, h2, h3, h4, h5, h6, h7⟩
          · exact Or.inl ⟨i, j, le_refl i, hin, hcyi, h2, h3, h4, h5⟩
          · exact Or.inr h
        · rintro (⟨k, j, h1, h2, h3, h4, h5, h6, h7⟩ | h)
          · rcases Nat.eq_or_lt_of_le h1 with hki | hki
            · subst hki
              exact Or.inr (Or.inl ⟨j, Nat.zero_le j, h4, h5, h6, h7⟩)
            · exact Or.inl ⟨k, j, by omega, h2, h3, h4, h5, h6, h7⟩
          · exact Or.inr (Or.inr h)
      · have hm1c :
            (if (setPixels m.fb cx (cy + i) (m.RAM (m.I + i))).2
             then wr8 m.V 15 1 else m.V) 15 = m.V 15 ∨
            (if (setPixels m.fb cx (cy + i) (m.RAM (m.I + i))).2
             then wr8 m.V 15 1 else m.V) 15 = 1 := by
          split
          · right
            simp [wr8]
          · left
            rfl
        rcases hVcase with h | h
        · rcases hm1c with h2 | h2
          · exact Or.inl (h.trans h2)
          · exact Or.inr (h.trans h2)
        · exact Or.inr h
    · have hstep : drawRows cx cy n m i (fuel + 1) = Except.ok m := by
        rw [drawRows]
        rw [if_neg]
        rintro ⟨-, h⟩
        exact hcyi h
      refine ⟨m, hstep, rfl, rfl, ?_, ?_, ?_, ?_, Or.inl rfl⟩
      · intro k j h1 h2 h3 h4 h5
        omega
      · intro r c h
        rfl
      · intro k h
        rfl
      · constructor
        · intro h
          exact Or.inr h
        · rintro (⟨k, j, h1, h2, h3, -⟩ | h)
          · omega
          · exact h

/-- `exec` on a `Dxyn` word is the row blit loop started at the coordinates
`(V[x] mod 64, V[y] mod 32)` read after the flag register is cleared. -/
theorem exec_draw (r : Nat) (m : Machine) (x y n : Nat)
    (hx : x < 16) (hy : y < 16) (hn : n < 16) :
    exec r (0xD000 + 256 * x + 16 * y + n) m =
      drawRows (wr8 m.V 15 0 x % 64) (wr8 m.V 15 0 y % 32) n
        { m with PC := (m.PC + 2) % 65536, V := wr8 m.V 15 0 } 0 n := by
  have h13 : (0xD000 + 256 * x + 16 * y + n) / 4096 = 13 := by omega
  have hn' : (0xD000 + 256 * x + 16 * y + n) % 16 = n := by omega
  have hx' : (0xD000 + 256 * x + 16 * y + n) / 256 % 16 = x := by omega
  have hy' : (0xD000 + 256 * x + 16 * y + n) / 16 % 16 = y := by omega
  simp only [exec, h13, hn', hx', hy']
  norm_num

/-- C5: for all 8-bit register values `Vx`, `Vy`, the add-registers
instruction `8xy4` leaves the destination register equal to
`(Vx + Vy) mod 256` and the flag register `V[0xF]` equal to 1 iff
`Vx + Vy > 255`, the flag being written after the destination (so for
`x = 0xF` the flag value, not the sum, is retained); no other register
changes and `PC` advances by 2. -/
theorem add_registers_spec (r : Nat) (m : Machine) (x y : Nat)
    (hx : x < 16) (hy : y < 16) :
    ∃ m', exec r (0x8004 + 256 * x + 16 * y) m = Except.ok m' ∧
      m'.V 15 = (if 255 < m.V x + m.V y then 1 else 0) ∧
      (x ≠ 15 → m'.V x = (m.V x + m.V y) % 256) ∧
      (∀ k, k ≠ x → k ≠ 15 → m'.V k = m.V k) ∧
      m'.PC = (m.PC + 2) % 65536 := by
  have h12 : (0x8004 + 256 * x + 16 * y) / 4096 = 8 := by omega
  have hn : (0x8004 + 256 * x + 16 * y) % 16 = 4 := by omega
  have hx' : (0x8004 + 256 * x + 16 * y) / 256 % 16 = x := by omega
  have hy' : (0x8004 + 256 * x + 16 * y) / 16 % 16 = y := by omega
  have hexec : exec r (0x8004 + 256 * x + 16 * y) m =
      Except.ok { m with PC := (m.PC + 2) % 65536,
                         V := wr8 (wr8 m.V x (m.V x + m.V y)) 15
                                (if 255 < m.V x + m.V y then 1 else 0) } := by
    simp only [exec, h12, hn, hx', hy']
    norm_num
  refine ⟨_, hexec, ?_, ?_, ?_, ?_⟩
  · by_cases hc : 255 < m.V x + m.V y <;> simp [wr8, hc]
  · intro hx15
    simp [wr8, hx15]
  · intro k hkx hk15
    simp [wr8, hkx, hk15]
  · rfl

/-- Witness for C5 at `x = 1`, `y = 2` on a machine with `V1 = 200`,
`V2 = 100` (so the carry is taken). -/
theorem add_registers_spec_witness :
    ∃ m', exec 0 (0x8004 + 256 * 1 + 16 * 2) wM = Except.ok m' ∧
      m'.V 15 = (if 255 < wM.V 1 + wM.V 2 then 1 else 0) := by
  obtain ⟨m', h1, h2, _⟩ := add_registers_spec 0 wM 1 2 (by decide) (by decide)
  exact ⟨m', h1, h2⟩

/-- C6: for all 8-bit register values, the sub instruction `8xy5`
(`Vx -= Vy`) leaves the destination equal to `(Vx - Vy) mod 256` and the
flag register equal to 1 iff the pre-update `Vx >= Vy` (no borrow), the
flag computed from pre-update values and written last (so it is what
remains when `x = 0xF`); no other register changes and `PC` advances by 2. -/
theorem sub_registers_spec (r : Nat) (m : Machine) (x y : Nat)
    (hx : x < 16) (hy : y < 16) (hvx : m.V x < 256) (hvy : m.V y < 256) :
    ∃ m', exec r (0x8005 + 256 * x + 16 * y) m = Except.ok m' ∧
      m'.V 15 = (if m.V y ≤ m.V x then 1 else 0) ∧
      (x ≠ 15 → (m'.V x : Int) = ((m.V x : Int) - (m.V y : Int)) % 256) ∧
      (∀ k, k ≠ x → k ≠ 15 → m'.V k = m.V k) ∧
      m'.PC = (m.PC + 2) % 65536 := by
  have h12 : (0x8005 + 256 * x + 16 * y) / 4096 = 8 := by omega
  have hn : (0x8005 + 256 * x + 16 * y) % 16 = 5 := by omega
  have hx' : (0x8005 + 256 * x + 16 * y) / 256 % 16 = x := by omega
  have hy' : (0x8005 + 256 * x + 16 * y) / 16 % 16 = y := by omega
  have hexec : exec r (0x8005 + 256 * x + 16 * y) m =
      Except.ok { m with PC := (m.PC + 2) % 65536,
                         V := wr8 (wr8 m.V x (m.V x + 256 - m.V y)) 15
                                (if m.V y ≤ m.V x then 1 else 0) } := by
    simp only [exec, h12, hn, hx', hy']
    norm_num
  refine ⟨_, hexec, ?_, ?_, ?_, ?_⟩
  · by_cases hc : m.V y ≤ m.V x <;> simp [wr8, hc]
  · intro hx15
    simp only [wr8, if_neg hx15]
    norm_num
    omega
  · intro k hkx hk15
    simp [wr8, hkx, hk15]
  · rfl

/-- Witness for C6 at `x = 2`, `y = 1` on a machine with `V2 = 100`,
`V1 = 200` (borrow taken, wraparound difference). -/
theorem sub_registers_spec_witness :
    ∃ m', exec 0 (0x8005 + 256 * 2 + 16 * 1) wM = Except.ok m' ∧
      m'.V 15 = (if wM.V 1 ≤ wM.V 2 then 1 else 0) := by
  obtain ⟨m', h1, h2, _⟩ :=
    sub_registers_spec 0 wM 2 1 (by decide) (by decide) (by decide) (by decide)
  exact ⟨m', h1, h2⟩

/-- C7: the shift instructions consult `Vy` (COSMAC-VIP convention).
`8xy6` sets `Vx = Vy >> 1` with flag = `Vy`'s low bit; `8xyE` sets
`Vx = (Vy << 1) mod 256` with flag = `Vy`'s high bit; both flags are
derived from `Vy`'s pre-shift value and written last (they survive
`x = 0xF`). -/
theorem shift_instructions_spec (r : Nat) (m : Machine) (x y : Nat)
    (hx : x < 16) (hy : y < 16) (hvy : m.V y < 256) :
    (∃ m', exec r (0x8006 + 256 * x + 16 * y) m = Except.ok m' ∧
      m'.V 15 = m.V y % 2 ∧ (x ≠ 15 → m'.V x = m.V y / 2) ∧
      (∀ k, k ≠ x → k ≠ 15 → m'.V k = m.V k) ∧ m'.PC = (m.PC + 2) % 65536) ∧
    (∃ m', exec r (0x800E + 256 * x + 16 * y) m = Except.ok m' ∧
      m'.V 15 = m.V y / 128 ∧ (x ≠ 15 → m'.V x = m.V y * 2 % 256) ∧
      (∀ k, k ≠ x → k ≠ 15 → m'.V k = m.V k) ∧ m'.PC = (m.PC + 2) % 65536) := by
  constructor
  · have h12 : (0x8006 + 256 * x + 16 * y) / 4096 = 8 := by omega
    have hn : (0x8006 + 256 * x + 16 * y) % 16 = 6 := by omega
    have hx' : (0x8006 + 256 * x + 16 * y) / 256 % 16 = x := by omega
    have hy' : (0x8006 + 256 * x + 16 * y) / 16 % 16 = y := by omega
    have hexec : exec r (0x8006 + 256 * x + 16 * y) m =
        Except.ok { m with PC := (m.PC + 2) % 65536,
                           V := wr8 (wr8 m.V x (m.V y / 2)) 15 (m.V y % 2) } := by
      simp only [exec, h12, hn, hx', hy']
      norm_num
    refine ⟨_, hexec, ?_, ?_, ?_, ?_⟩
    · simp only [wr8]
      norm_num
      omega
    · intro hx15
      simp only [wr8, if_neg hx15]
      norm_num
      omega
    · intro k hkx hk15
      simp [wr8, hkx, hk15]
    · rfl
  · have h12 : (0x800E + 256 * x + 16 * y) / 4096 = 8 := by omega
    have hn : (0x800E + 256 * x + 16 * y) % 16 = 14 := by omega
    have hx' : (0x800E + 256 * x + 16 * y) / 256 % 16 = x := by omega
    have hy' : (0x800E + 256 * x + 16 * y) / 16 % 16 = y := by omega
    have hexec : exec r (0x800E + 256 * x + 16 * y) m =
        Except.ok { m with PC := (m.PC + 2) % 65536,
                           V := wr8 (wr8 m.V x (m.V y * 2)) 15 (m.V y / 128) } := by
      simp only [exec, h12, hn, hx', hy']
      norm_num
    refine ⟨_, hexec, ?_, ?_, ?_, ?_⟩
    · simp only [wr8]
      norm_num
      omega
    · intro hx15
      simp only [wr8, if_neg hx15]
      norm_num
    · intro k hkx hk15
      simp [wr8, hkx, hk15]
    · rfl

/-- Witness for C7 at `x = 3`, `y = 1` with `V1 = 200` (low bit 0, high bit 1). -/
theorem shift_instructions_spec_witness :
    ∃ m', exec 0 (0x8006 + 256 * 3 + 16 * 1) wM = Except.ok m' ∧ m'.V 15 = wM.V 1 % 2 := by
  obtain ⟨⟨m', h1, h2, _⟩, _⟩ :=
    shift_instructions_spec 0 wM 3 1 (by decide) (by decide) (by decide)
  exact ⟨m', h1, h2⟩

/-- C1 (refuting evidence): the BCD-store instruction `Fx33` executed with
`I = 0xFFF` writes the three RAM addresses 4095, 4096 and 4097 — the last two
at or beyond the 4096-byte extent — yet does not fault: the step returns `ok`
and the out-of-extent cell 4096 receives the tens digit of `V0 = 123`.  In the
C++ source this is an unchecked out-of-bounds array write (undefined
behavior), not a reported fault. -/
theorem bcd_store_oob_unchecked :
    stepWriteAddrs c1m = [4095, 4096, 4097] ∧
    isOk (step 0 c1m) = true ∧
    okRAMAt 4096 (step 0 c1m) = some 2 := by decide

/-- C2 counterexample: with the program of 16 nested calls, the first 15
calls succeed (PC at the 16th call site `0x23C`, 15 stack entries), but the
16th call faults with StackOverflow — so nesting depth 16, which the claim
says works, already faults (`if ((SP + 1u) == STACK.size())` rejects a push
with only 15 entries present). -/
theorem call_depth_sixteen_faults :
    okPCSP (stepN (fun _ => 0) 15 (callMachine 16)) = some (572, 15) ∧
    isStackOverflow (stepN (fun _ => 0) 16 (callMachine 16)) = true := by decide

/-- C2 amended: for every nesting depth `d` with `1 <= d <= 15`, executing
the `d` nested calls and then `i <= d` returns lands `PC` on the instruction
immediately after the corresponding call (`0x200 + 4(d-i) + 2`) with `d - i`
stack entries, without faulting; a 16th call with 15 entries already present
faults with StackOverflow; a return with an empty call stack faults with
StackUnderflow. -/
theorem call_return_roundtrip_fifteen :
    (∀ d ∈ List.range 16, 1 ≤ d →
      okPCSP (stepN (fun _ => 0) d (callMachine d)) = some (512 + 4 * d, d) ∧
      (∀ i ∈ List.range 16, 1 ≤ i → i ≤ d →
        okPCSP (stepN (fun _ => 0) (d + i) (callMachine d)) =
          some (512 + 4 * (d - i) + 2, d - i))) ∧
    isStackOverflow (step 0 { callMachine 16 with PC := 572, SP := 15 }) = true ∧
    isStackUnderflow (step 0 (initM retProg)) = true := by decide

/-- Witness for C2 at depth 3: after 3 calls and 3 returns `PC = 0x202`,
the instruction right after the first call, and the stack is empty. -/
theorem call_return_roundtrip_fifteen_witness :
    okPCSP (stepN (fun _ => 0) (3 + 3) (callMachine 3)) =
      some (512 + 4 * (3 - 3) + 2, 3 - 3) :=
  (call_return_roundtrip_fifteen.1 3 (by decide) (by decide)).2 3 (by decide) (by decide)
    (by decide)

/-- C3 (refuting evidence): the startup check `if (program_end == 0)` is
never true for any load result (a failed `load` returns 0 and
`program_end = 0 - 1` wraps to 0xFFFF on `std::uint16_t`; a successful load
yields `program_end >= 0x1FF`), so an unreadable program file is not
rejected: `program_end` becomes 65535 and the interpreter loop fetches and
executes an instruction at `PC = 0x200` from the zeroed RAM. -/
theorem load_failure_executes_instructions :
    (∀ file, loadRejected file = false) ∧
    programEnd none = 65535 ∧
    (loopRun (programEnd none) (fun _ => 0) 1 (initM (loadFont (fun _ => 0)))).2 = [512] := by
  refine ⟨?_, by decide, by decide⟩
  intro file
  cases file with
  | none => decide
  | some bytes =>
    simp only [loadRejected, programEnd, load, decide_eq_false_iff_not]
    split <;> omega

/-- C10: the interpreter loop fetches an instruction only while
`PC <= program_end` (every address in the fetch trace is at most
`program_end`), and whenever `PC` exceeds `program_end` at the loop head the
run terminates immediately and normally with the success outcome, fetching
nothing, faulting on nothing and reporting nothing. -/
theorem loop_guard_spec :
    (∀ progEnd rnds fuel m, progEnd < m.PC →
       loopRun progEnd rnds (fuel + 1) m = (RunOutcome.success, [])) ∧
    (∀ progEnd rnds fuel m a, a ∈ (loopRun progEnd rnds fuel m).2 → a ≤ progEnd) := by
  constructor
  · intro progEnd rnds fuel m h
    simp [loopRun, h]
  · intro progEnd rnds fuel
    induction fuel with
    | zero =>
      intro m a ha
      simp [loopRun] at ha
    | succ fuel ih =>
      intro m a ha
      by_cases hg : progEnd < m.PC
      · simp [loopRun, hg] at ha
      · by_cases hh : m.halt = true
        · rw [loopRun] at ha
          simp only [if_neg hg, hh, if_true] at ha
          exact ih _ a ha
        · rw [loopRun] at ha
          simp only [if_neg hg, hh] at ha
          cases hE : step (rnds fuel) m with
          | error f =>
            rw [hE] at ha
            simp at ha
            omega
          | ok m1 =>
            rw [hE] at ha
            simp at ha
            rcases ha with ha | ha
            · omega
            · exact ih _ a ha

/-- Witness for C10: a fresh machine with `PC = 0x200` past a program end of
`0x1FF` exits successfully with an empty fetch trace, and the one fetch done
under `program_end = 0xFFFF` is at an address within the bound. -/
theorem loop_guard_spec_witness :
    loopRun 511 (fun _ => 0) 1 (initM (fun _ => 0)) = (RunOutcome.success, []) ∧
    (512 : Nat) ≤ 65535 :=
  ⟨loop_guard_spec.1 511 (fun _ => 0) 0 (initM (fun _ => 0)) (by decide),
   loop_guard_spec.2 65535 (fun _ => 0) 1 (initM (fun _ => 0)) 512 (by decide)⟩

/-- Once the sound timer is 0 the timer block never fires again: the state
is unchanged and no tone-off signal is ever emitted. -/
theorem soundRunCount_zero : ∀ k a, soundRunCount k 0 a = (0, a, 0) := by
  intro k
  induction k with
  | zero => intro a; rfl
  | succ k ih => intro a; simp [soundRunCount, soundTick, ih]

/-- C8: once the accumulated 2 ms frame deltas reach the 16.7 ms tick
threshold, a timer holding `n > 0` decrements to exactly `n - 1` and its
accumulator resets to 0; over any number of driver iterations the sound
timer emits at most one tone-off signal, and exactly one iff it started
positive and ended at 0; the `Fx15`/`Fx18` instructions write the timer and
reset its accumulator; and `Fx18` signals tone-on exactly when the written
value is positive. -/
theorem timer_spec :
    (∀ s a, 0 < s → TIMER_TICK_MC ≤ a + FRAME_MC →
       soundTick s a = (s - 1, 0, decide (s - 1 = 0))) ∧
    (∀ d a, 0 < d → TIMER_TICK_MC ≤ a + FRAME_MC → delayTick d a = (d - 1, 0)) ∧
    (∀ k s a, (soundRunCount k s a).2.2 ≤ 1 ∧
       ((soundRunCount k s a).2.2 = 1 ↔ 0 < s ∧ (soundRunCount k s a).1 = 0)) ∧
    (∀ r m x, x < 16 → ∃ m', exec r (0xF015 + 256 * x) m = Except.ok m' ∧
       m'.delay = m.V x ∧ m'.delayAcc = 0) ∧
    (∀ r m x, x < 16 → ∃ m', exec r (0xF018 + 256 * x) m = Except.ok m' ∧
       m'.sound = m.V x ∧ m'.soundAcc = 0 ∧
       (toneOnSignal (0xF018 + 256 * x) m = true ↔ 0 < m.V x)) := by
  refine ⟨?_, ?_, ?_, ?_, ?_⟩
  · intro s a hs ha
    simp [soundTick, hs, ha]
  · intro d a hd ha
    simp [delayTick, hd, ha]
  · intro k
    induction k with
    | zero =>
      intro s a
      exact ⟨Nat.zero_le _, by simp [soundRunCount]; omega⟩
    | succ k ih =>
      intro s a
      rcases Nat.eq_zero_or_pos s with hs | hs
      · subst hs
        simp [soundRunCount_zero, soundRunCount, soundTick]
      · by_cases hth : TIMER_TICK_MC ≤ a + FRAME_MC
        · rcases Nat.lt_or_ge 1 s with hs1 | hs1
          · have ht : soundTick s a = (s - 1, 0, false) := by
              simp [soundTick, hs, hth]
              omega
            have := ih (s - 1) 0
            simp [soundRunCount, ht]
            constructor
            · exact this.1
            · rw [this.2]
              omega
          · have hs1' : s = 1 := by omega
            subst hs1'
            have ht : soundTick 1 a = (0, 0, true) := by simp [soundTick, hth]
            simp [soundRunCount, ht, soundRunCount_zero]
        · have ht : soundTick s a = (s, a + FRAME_MC, false) := by
            simp [soundTick, hs, hth]
          have := ih s (a + FRAME_MC)
          simp [soundRunCount, ht]
          exact this
  · intro r m x hx
    have h12 : (0xF015 + 256 * x) / 4096 = 15 := by omega
    have hkk : (0xF015 + 256 * x) % 256 = 21 := by omega
    have hx' : (0xF015 + 256 * x) / 256 % 16 = x := by omega
    have hexec : exec r (0xF015 + 256 * x) m =
        Except.ok { m with PC := (m.PC + 2) % 65536, delay := m.V x, delayAcc := 0 } := by
      simp only [exec, h12, hkk, hx']
      norm_num
    exact ⟨_, hexec, rfl, rfl⟩
  · intro r m x hx
    have h12 : (0xF018 + 256 * x) / 4096 = 15 := by omega
    have hkk : (0xF018 + 256 * x) % 256 = 24 := by omega
    have hx' : (0xF018 + 256 * x) / 256 % 16 = x := by omega
    have hexec : exec r (0xF018 + 256 * x) m =
        Except.ok { m with PC := (m.PC + 2) % 65536, sound := m.V x, soundAcc := 0 } := by
      simp only [exec, h12, hkk, hx']
      norm_num
    refine ⟨_, hexec, rfl, rfl, ?_⟩
    simp only [toneOnSignal, h12, hkk, hx']
    norm_num

/-- Witness for C8: one tick from `sound = 1` with a nearly full accumulator
decrements to 0 and signals tone-off; one tick from `delay = 5` decrements
to 4 with the accumulator reset. -/
theorem timer_spec_witness :
    soundTick 1 16000 = (0, 0, true) ∧ delayTick 5 15000 = (4, 0) := by
  constructor
  · have h := timer_spec.1 1 16000 (by decide) (by decide)
    simpa using h
  · exact timer_spec.2.1 5 15000 (by decide) (by decide)

/-- C4: for a draw `Dxyn` with data registers `x`, `y` (the degenerate case
of the flag register itself used as a coordinate is excluded) whose executed
sprite reads stay in bounds: the blit starts at `(Vx mod 64, Vy mod 32)`;
every framebuffer cell covered by a row above the bottom edge and a column
left of the right edge is XORed with the sprite bit; all other cells —
including all cells of rows at or below the bottom edge (skipped, not
wrapped) and of columns clipped at the right edge — are unchanged; the flag
register ends 1 iff some lit (nonzero) covered cell was turned off during
the whole blit, and 0 otherwise regardless of its previous value (it is
cleared first); no other register changes. -/
theorem draw_instruction_spec (r : Nat) (m : Machine) (x y n : Nat)
    (hx : x < 16) (hy : y < 16) (hn : n < 16) (hx15 : x ≠ 15) (hy15 : y ≠ 15)
    (hsafe : ∀ i, i < n → m.V y % 32 + i < 32 → m.I + i < 4096) :
    ∃ m', exec r (0xD000 + 256 * x + 16 * y + n) m = Except.ok m' ∧
      (∀ i j, i < n → m.V y % 32 + i < 32 → j < 8 → m.V x % 64 + j < 64 →
        m'.fb (m.V y % 32 + i) (m.V x % 64 + j) =
          Nat.xor (m.fb (m.V y % 32 + i) (m.V x % 64 + j)) (spriteMask (m.RAM (m.I + i)) j)) ∧
      (∀ rr cc, (∀ i j, i < n → m.V y % 32 + i < 32 → j < 8 → m.V x % 64 + j < 64 →
          ¬(rr = m.V y % 32 + i ∧ cc = m.V x % 64 + j)) → m'.fb rr cc = m.fb rr cc) ∧
      (m'.V 15 = 1 ↔ ∃ i j, i < n ∧ m.V y % 32 + i < 32 ∧ j < 8 ∧ m.V x % 64 + j < 64 ∧
        m.fb (m.V y % 32 + i) (m.V x % 64 + j) ≠ 0 ∧
        Nat.xor (m.fb (m.V y % 32 + i) (m.V x % 64 + j)) (spriteMask (m.RAM (m.I + i)) j) = 0) ∧
      (m'.V 15 = 0 ∨ m'.V 15 = 1) ∧
      (∀ k, k ≠ 15 → m'.V k = m.V k) := by
  have hexec := exec_draw r m x y n hx hy hn
  rw [wr8_not_15 m.V 0 x hx15, wr8_not_15 m.V 0 y hy15] at hexec
  obtain ⟨m', hrun, hRAM, hI, hchg, hunc, hVo, hViff, hVcase⟩ :=
    drawRows_spec (m.V x % 64) (m.V y % 32) n n 0
      { m with PC := (m.PC + 2) % 65536, V := wr8 m.V 15 0 }
      (by omega) (fun k h1 h2 h3 => hsafe k h2 h3)
  have hmcV15 : wr8 m.V 15 0 15 = 0 := by rw [wr8_at_15]
  refine ⟨m', hexec.trans hrun, ?_, ?_, ?_, ?_, ?_⟩
  · intro i j h1 h2 h3 h4
    exact hchg i j (Nat.zero_le i) h1 h2 h3 h4
  · intro rr cc hno
    exact hunc rr cc (fun k j h1 h2 h3 h4 h5 => hno k j h2 h3 h4 h5)
  · rw [hViff]
    constructor
    · rintro (⟨k, j, h0, h1, h2, h3, h4, h5, h6⟩ | h)
      · exact ⟨k, j, h1, h2, h3, h4, h5, h6⟩
      · rw [show ({ m with PC := (m.PC + 2) % 65536, V := wr8 m.V 15 0 } : Machine).V 15 =
            wr8 m.V 15 0 15 from rfl, hmcV15] at h
        exact absurd h (by norm_num)
    · rintro ⟨i, j, h1, h2, h3, h4, h5, h6⟩
      exact Or.inl ⟨i, j, Nat.zero_le i, h1, h2, h3, h4, h5, h6⟩
  · rcases hVcase with h | h
    · left
      rw [h]
      exact hmcV15
    · right
      exact h
  · intro k hk
    rw [hVo k hk]
    exact wr8_not_15 m.V 0 k hk

/-- Witness for C4: the concrete one-row draw on `cm9` succeeds with a
boolean flag value. -/
theorem draw_instruction_spec_witness :
    ∃ m', exec 0 (0xD000 + 256 * 0 + 16 * 1 + 1) cm9 = Except.ok m' ∧
      (m'.V 15 = 0 ∨ m'.V 15 = 1) := by
  obtain ⟨m', h1, -, -, -, h5, -⟩ :=
    draw_instruction_spec 0 cm9 0 1 1 (by decide) (by decide) (by decide) (by decide)
      (by decide) (by intro i h1 h2; show 768 + i < 4096; omega)
  exact ⟨m', h1, h5⟩

/-- C9 amended: drawing the identical sprite at the identical coordinates
twice in succession restores the whole framebuffer to its pre-draw state,
and the second draw's collision flag is 1 iff some set sprite bit inside
the clipped blit region covers a cell that was unlit (zero) before the
first draw — equivalently, iff the first draw turned some pixel on. -/
theorem draw_twice_spec (r1 r2 : Nat) (m : Machine) (x y n : Nat)
    (hx : x < 16) (hy : y < 16) (hn : n < 16) (hx15 : x ≠ 15) (hy15 : y ≠ 15)
    (hsafe : ∀ i, i < n → m.V y % 32 + i < 32 → m.I + i < 4096) :
    ∃ m1 m2, exec r1 (0xD000 + 256 * x + 16 * y + n) m = Except.ok m1 ∧
      exec r2 (0xD000 + 256 * x + 16 * y + n) m1 = Except.ok m2 ∧
      (∀ rr cc, m2.fb rr cc = m.fb rr cc) ∧
      (m2.V 15 = 1 ↔ ∃ i j, i < n ∧ m.V y % 32 + i < 32 ∧ j < 8 ∧ m.V x % 64 + j < 64 ∧
        spriteBit (m.RAM (m.I + i)) j = 1 ∧ m.fb (m.V y % 32 + i) (m.V x % 64 + j) = 0) := by
  have hexec1 := exec_draw r1 m x y n hx hy hn
  rw [wr8_not_15 m.V 0 x hx15, wr8_not_15 m.V 0 y hy15] at hexec1
  obtain ⟨m1, hrun1, hRAM1, hI1, hchg1, hunc1, hVo1, hViff1, hVcase1⟩ :=
    drawRows_spec (m.V x % 64) (m.V y % 32) n n 0
      { m with PC := (m.PC + 2) % 65536, V := wr8 m.V 15 0 }
      (by omega) (fun k h1 h2 h3 => hsafe k h2 h3)
  dsimp only at hRAM1 hI1 hchg1 hunc1 hVo1
  have hV1x : m1.V x = m.V x := by
    rw [hVo1 x hx15]
    exact wr8_not_15 m.V 0 x hx15
  have hV1y : m1.V y = m.V y := by
    rw [hVo1 y hy15]
    exact wr8_not_15 m.V 0 y hy15
  have hexec2 := exec_draw r2 m1 x y n hx hy hn
  rw [wr8_not_15 m1.V 0 x hx15, wr8_not_15 m1.V 0 y hy15, hV1x, hV1y] at hexec2
  have hsafe2 : ∀ k, 0 ≤ k → k < n → m.V y % 32 + k < 32 →
      ({ m1 with PC := (m1.PC + 2) % 65536, V := wr8 m1.V 15 0 } : Machine).I + k < 4096 := by
    intro k _ h2 h3
    show m1.I + k < 4096
    rw [hI1]
    exact hsafe k h2 h3
  obtain ⟨m2, hrun2, hRAM2, hI2, hchg2, hunc2, hVo2, hViff2, hVcase2⟩ :=
    drawRows_spec (m.V x % 64) (m.V y % 32) n n 0
      { m1 with PC := (m1.PC + 2) % 65536, V := wr8 m1.V 15 0 }
      (by omega) hsafe2
  dsimp only at hRAM2 hI2 hchg2 hunc2 hVo2 hViff2
  refine ⟨m1, m2, hexec1.trans hrun1, hexec2.trans hrun2, ?_, ?_⟩
  · intro rr cc
    by_cases hreg : ∃ i j, i < n ∧ m.V y % 32 + i < 32 ∧ j < 8 ∧ m.V x % 64 + j < 64 ∧
        rr = m.V y % 32 + i ∧ cc = m.V x % 64 + j
    · obtain ⟨i, j, h1, h2, h3, h4, rfl, rfl⟩ := hreg
      have e2 := hchg2 i j (Nat.zero_le i) h1 h2 h3 h4
      rw [hRAM1, hI1] at e2
      have e1 := hchg1 i j (Nat.zero_le i) h1 h2 h3 h4
      rw [e1] at e2
      rw [e2]
      exact xorCancel _ _
    · have hno : ∀ k j, 0 ≤ k → k < n → m.V y % 32 + k < 32 → j < 8 →
          m.V x % 64 + j < 64 → ¬(rr = m.V y % 32 + k ∧ cc = m.V x % 64 + j) := by
        intro k j _ h2 h3 h4 h5 hc
        exact hreg ⟨k, j, h2, h3, h4, h5, hc.1, hc.2⟩
      have e2 := hunc2 rr cc hno
      have e1 := hunc1 rr cc hno
      rw [e2, e1]
  · rw [hViff2, hRAM1, hI1]
    constructor
    · rintro (⟨k, j, h0, h1, h2, h3, h4, h5, h6⟩ | h)
      · have e1 := hchg1 k j (Nat.zero_le k) h1 h2 h3 h4
        rw [e1] at h5 h6
        rw [xorCancel] at h6
        rw [h6, zeroXor] at h5
        refine ⟨k, j, h1, h2, h3, h4, ?_, h6⟩
        have hb : spriteBit (m.RAM (m.I + k)) j < 2 := Nat.mod_lt _ (by norm_num)
        simp only [spriteMask] at h5
        omega
      · rw [wr8_at_15] at h
        exact absurd h (by norm_num)
    · rintro ⟨i, j, h1, h2, h3, h4, h5, h6⟩
      left
      have e1 := hchg1 i j (Nat.zero_le i) h1 h2 h3 h4
      refine ⟨i, j, Nat.zero_le i, h1, h2, h3, h4, ?_, ?_⟩
      · rw [e1, h6, zeroXor]
        simp only [spriteMask, h5]
        norm_num
      · rw [e1, xorCancel]
        exact h6

/-- C9 counterexample: on `cm9` the only set sprite bit covers cell (0,0),
which is lit (255) before the first draw, so the claim predicts the second
draw's collision flag is 1; in fact the first draw reports the collision
(flag 1) and the second draw's flag is 0 — a pixel lit before the first
draw is turned off by the first draw and turned back on (no lit-to-unlit
transition) by the second. -/
theorem draw_twice_flag_counterexample :
    cm9.fb 0 0 = 255 ∧ spriteBit (cm9.RAM (cm9.I + 0)) 0 = 1 ∧
    okVF (exec 0 0xD011 cm9) = some 1 ∧
    okVF (draw2 cm9 0xD011) = some 0 := by decide

/-- Witness for C9's amended theorem: both draws on `cm9` succeed. -/
theorem draw_twice_spec_witness :
    ∃ m1 m2, exec 0 (0xD000 + 256 * 0 + 16 * 1 + 1) cm9 = Except.ok m1 ∧
      exec 0 (0xD000 + 256 * 0 + 16 * 1 + 1) m1 = Except.ok m2 := by
  obtain ⟨m1, m2, h1, h2, -, -⟩ :=
    draw_twice_spec 0 0 cm9 0 1 1 (by decide) (by decide) (by decide) (by decide)
      (by decide) (by intro i h1 h2; show 768 + i < 4096; omega)
  exact ⟨m1, m2, h1, h2⟩

end Chip8
